import Mathlib

/-!
Verification of the token lifecycle and device-binding gateway implemented in
`server.cjs`.

The Mongo `Key` collection is modelled as a list of records; `findOne`,
`findOneAndUpdate`, `findOneAndDelete` and `document.save()` all act on the
first record whose `key` field matches, mirroring Mongo's single-document
operations.  Timestamps and durations are millisecond counts modelled as `Int`
(`Date.now()` is passed in explicitly as `now`).  Query and body parameters
are `Option String` / `Option Int`, with JavaScript truthiness made explicit.
-/

namespace KeyServer

/-- A token record, mirroring the Mongoose `keySchema`: `key` (unique id),
`note` (label, default "No Label"), `hwid` (device binding, default null),
`created_at` and `expires` (millisecond timestamps). -/
structure KeyRecord where
  key : String
  note : String
  hwid : Option String
  created_at : Int
  expires : Int
deriving Repr, DecidableEq

/-- The Mongo `Key` collection. -/
abbrev Store := List KeyRecord

/-- Truthiness of an optional string, as JavaScript sees a query or body
parameter: `undefined`/`null` and the empty string are falsy. -/
def jsTruthy : Option String → Bool
  | none => false
  | some s => !s.isEmpty

/-- Lookup `Key.findOne(\x7bkey: k\x7d)`: the first record whose key matches. -/
def findOne (k : String) (store : Store) : Option KeyRecord :=
  store.find? (fun r => r.key == k)

/-- Rewrite the first record satisfying `p` with `f`, leaving the rest alone.
This is the store effect shared by `findOneAndUpdate`, `findOneAndDelete`'s
update cousin and `document.save()` after mutating a fetched document. -/
def updateFirst (p : KeyRecord → Bool) (f : KeyRecord → KeyRecord) : Store → Store
  | [] => []
  | r :: rest => if p r then f r :: rest else r :: updateFirst p f rest

/-- Store effect of `kData.hwid = h; await kData.save()`: the fetched document
(the first one with key `k`) gets its `hwid` overwritten with `h`. -/
def saveHwid (k : String) (h : String) (store : Store) : Store :=
  updateFirst (fun r => r.key == k) (fun r => { r with hwid := some h }) store

/-- Store effect of `Key.create(...)`: fails (duplicate-key error from the
`unique: true` index) when the key already exists, otherwise appends. -/
def create (r : KeyRecord) (store : Store) : Option Store :=
  if store.any (fun x => x.key == r.key) then none else some (store ++ [r])

/-- Outcome of one redemption, one constructor per exit of `validateKey`.
`missingParams` and `notFound` both render as the `MSG_DENIED` page;
`expired` renders `MSG_EXPIRED`; `deviceMismatch` renders `MSG_LOCKED`;
`authorized` lets the route serve its script. -/
inductive ValidationOutcome where
  | missingParams
  | notFound
  | expired
  | deviceMismatch
  | authorized
deriving Repr, DecidableEq

/-- The HTTP body each outcome produces (403 for all failures). The code
collapses `missingParams` and `notFound` into one page. -/
def responseOf : ValidationOutcome → String
  | .missingParams => "ACCESS DENIED"
  | .notFound => "ACCESS DENIED"
  | .expired => "KEY EXPIRED"
  | .deviceMismatch => "HWID LOCKED"
  | .authorized => "script"

/-- The `validateKey(req, res)` gate of `server.cjs`, run to completion with no
interleaving: check parameter truthiness, look the key up, check expiry
(`Date.now() > kData.expires`), then bind on a falsy stored hwid or compare
the stored hwid against the presented one.  Returns the outcome together with
the store after the call. -/
def validateKey (key hwid : Option String) (now : Int) (store : Store) :
    ValidationOutcome × Store :=
  if !jsTruthy key || !jsTruthy hwid then (.missingParams, store)
  else
    match findOne (key.getD "") store with
    | none => (.notFound, store)
    | some kData =>
      if now > kData.expires then (.expired, store)
      else if !jsTruthy kData.hwid then
        (.authorized, saveHwid kData.key (hwid.getD "") store)
      else if kData.hwid == hwid then (.authorized, store)
      else (.deviceMismatch, store)

/-- The validation algorithm as the specification states it, transcribed for
the refinement claim: fail `MissingParameters` without touching the store,
then `NotFound`, then `Expired` when `now > expires_at`, then bind when
`device_binding` is null, else succeed iff the binding equals the presented
device. -/
def specValidate (key hwid : Option String) (now : Int) (store : Store) :
    ValidationOutcome × Store :=
  if !jsTruthy key || !jsTruthy hwid then (.missingParams, store)
  else
    match findOne (key.getD "") store with
    | none => (.notFound, store)
    | some kData =>
      if now > kData.expires then (.expired, store)
      else
        match kData.hwid with
        | none => (.authorized, saveHwid kData.key (hwid.getD "") store)
        | some bound =>
          if bound == hwid.getD "" then (.authorized, store)
          else (.deviceMismatch, store)

/-- A store is well formed when no record carries the empty string as a
binding: bindings are either null or a device id that passed the truthiness
check of `validateKey`, which every reachable store satisfies. -/
def wellFormed (store : Store) : Bool :=
  store.all (fun r => r.hwid != some "")

/-! ### Interleaved executions of `validateKey`

`validateKey` contains two `await` points touching the store: the
`Key.findOne` read and the `kData.save()` write.  Between them another request
can run.  The machine below splits one redemption into those atomic steps; a
schedule picks which pending request moves next. -/

/-- One pending redemption request: its query parameters and the time at which
it runs. -/
structure Request where
  key : Option String
  hwid : Option String
  now : Int
deriving Repr, DecidableEq

/-- Control point a redemption has reached: before the `findOne` read, after
the read (holding the snapshot document it fetched), or finished. -/
inductive Phase where
  | start
  | afterRead (snapshot : Option KeyRecord)
  | done (outcome : ValidationOutcome)
deriving Repr, DecidableEq

/-- One atomic step of a single redemption against the shared store.  From
`start` the parameter check runs and the read is issued; from `afterRead` the
expiry and binding logic of `validateKey` runs on the snapshot, and in the
binding branch `kData.save()` writes the snapshot's mutated `hwid` back
unconditionally — the write does not re-check the current stored binding. -/
def microStep (req : Request) (ph : Phase) (store : Store) : Phase × Store :=
  match ph with
  | .start =>
    if !jsTruthy req.key || !jsTruthy req.hwid then (.done .missingParams, store)
    else (.afterRead (findOne (req.key.getD "") store), store)
  | .afterRead none => (.done .notFound, store)
  | .afterRead (some kData) =>
    if req.now > kData.expires then (.done .expired, store)
    else if !jsTruthy kData.hwid then
      (.done .authorized, saveHwid kData.key (req.hwid.getD "") store)
    else if kData.hwid == req.hwid then (.done .authorized, store)
    else (.done .deviceMismatch, store)
  | .done r => (.done r, store)

/-- A system configuration: the shared store plus each request's phase. -/
structure Config where
  store : Store
  reqs : List (Request × Phase)
deriving Repr, DecidableEq

/-- Run the request at index `i` for one atomic step. -/
def stepAt (i : Nat) (c : Config) : Config :=
  match c.reqs[i]? with
  | none => c
  | some (req, ph) =>
    let out := microStep req ph c.store
    { store := out.2, reqs := c.reqs.set i (req, out.1) }

/-- Run a schedule: at each entry the named request takes its next step. -/
def runSchedule (sched : List Nat) (c : Config) : Config :=
  sched.foldl (fun acc i => stepAt i acc) c

/-! ### Administrative endpoints -/

/-- The shared admin secret checked by the `requireAuth` middleware. -/
def ADMIN_PASSWORD : String := "Arn903_346"

/-- The `requireAuth` middleware: the `authorization` header (or `pass` query
value) must equal the admin password, else every `/api/...` route answers 403
before touching the store. -/
def requireAuth (pass : Option String) : Bool :=
  pass == some ADMIN_PASSWORD

/-- Result of `POST /api/extend`. -/
inductive ExtendResult where
  | ok (newExpires : Int) (store : Store)
  | notFound
deriving Repr, DecidableEq

/-- Store effect of `kData.expires = e; await kData.save()` on the fetched
(first-matching) document. -/
def saveExpires (k : String) (e : Int) (store : Store) : Store :=
  updateFirst (fun r => r.key == k) (fun r => { r with expires := e }) store

/-- The `POST /api/extend` handler after body parsing: look the key up, take
`base = expires > now ? expires : now`, and save
`base + days * 24 * 60 * 60 * 1000`. -/
def extendKey (k : String) (days : Int) (now : Int) (store : Store) : ExtendResult :=
  match findOne k store with
  | none => .notFound
  | some kData =>
    let base := if kData.expires > now then kData.expires else now
    .ok (base + days * 86400000) (saveExpires k (base + days * 86400000) store)

/-- The `POST /api/reset` handler: `findOneAndUpdate` sets the first matching
record's `hwid` to null; answers not-found when no record matches. -/
def resetHwid (k : String) (store : Store) : Option Store :=
  match findOne k store with
  | none => none
  | some _ => some (updateFirst (fun r => r.key == k) (fun r => { r with hwid := none }) store)

/-- The `POST /api/update` handler: `findOneAndUpdate` rewrites the note. -/
def updateNote (k : String) (note : String) (store : Store) : Option Store :=
  match findOne k store with
  | none => none
  | some _ => some (updateFirst (fun r => r.key == k) (fun r => { r with note := note }) store)

/-- The `POST /api/delete` handler: `findOneAndDelete` removes the first
matching record. -/
def deleteKey (k : String) (store : Store) : Option Store :=
  match findOne k store with
  | none => none
  | some _ => some (store.eraseP (fun r => r.key == k))

/-- The `POST /api/purge` handler:
`Key.deleteMany(\x7bexpires: \x7b$lt: Date.now()\x7d\x7d)`.  Returns the
surviving store and the reported `deletedCount`. -/
def purge (now : Int) (store : Store) : Store × Nat :=
  (store.filter (fun r => !decide (r.expires < now)),
   (store.filter (fun r => decide (r.expires < now))).length)

/-- Response of `POST /api/bulk-create`: the JSON is either
`success: true, keys` or (from the surrounding catch) `error: message`. -/
inductive BulkResult where
  | ok (keys : List String)
  | err (msg : String)
deriving Repr, DecidableEq

/-- Message of the Mongo duplicate-key error a conflicting `Key.create`
raises. -/
def dupKeyMessage : String := "E11000 duplicate key error"

/-- The creation loop of `/api/bulk-create`: one generated key name per
iteration; a failing `Key.create` aborts the handler through the surrounding
try/catch, which reports only the error message while the records created so
far stay in the store. -/
def bulkLoop (gen : Nat → String) (note : String) (createdAt expires : Int) :
    Nat → Nat → Store → List String → Store × BulkResult
  | _, 0, store, acc => (store, .ok acc)
  | i, n + 1, store, acc =>
    match create ⟨gen i, note, none, createdAt, expires⟩ store with
    | none => (store, .err dupKeyMessage)
    | some store2 => bulkLoop gen note createdAt expires (i + 1) n store2 (acc ++ [gen i])

/-- JavaScript `parseInt(x) || d`: `NaN` (modelled `none`) and `0` are falsy
and fall back to the default. -/
def orDefault (x : Option Int) (d : Int) : Int :=
  match x with
  | none => d
  | some 0 => d
  | some v => v

/-- Number of loop iterations `/api/bulk-create` runs:
`Math.min(parseInt(count) || 1, 50)`, and a negative value runs the loop zero
times. -/
def effBulkCount (count : Option Int) : Nat :=
  (min (orDefault count 1) 50).toNat

/-- The `POST /api/bulk-create` handler: `num = Math.min(parseInt(count) || 1, 50)`,
`durationDays = parseInt(days) || 30`, note falls back to "Bulk Generated",
then the creation loop runs `num` times. -/
def bulkCreate (gen : Nat → String) (count : Option Int) (days : Option Int)
    (note : Option String) (now : Int) (store : Store) : Store × BulkResult :=
  let note0 : String := if jsTruthy note then note.getD "" else "Bulk Generated"
  bulkLoop gen note0 now (now + orDefault days 30 * 86400000) 0 (effBulkCount count) store []

/-- Count of successful creations a bulk response reports to the caller: the
`keys` array length on success, nothing on error. -/
def reportedCount : BulkResult → Option Nat
  | .ok keys => some keys.length
  | .err _ => none

/-- Ceiling division for `b > 0`, as `Math.ceil(a / b)` computes on exact
values. -/
def ceilDiv (a b : Int) : Int := -((-a).fdiv b)

/-- Result of `POST /api/duplicate`. -/
inductive DupResult where
  | ok (newRecord : KeyRecord) (store : Store)
  | notFound
  | createError
deriving Repr, DecidableEq

/-- The `POST /api/duplicate` handler: look the original up, compute
`daysLeft = Math.max(1, Math.ceil((original.expires - Date.now()) / 86400000))`
and create a fresh record with the note annotated " (copy)", a null binding
and expiry `Date.now() + daysLeft * 24 * 60 * 60 * 1000`. -/
def duplicateKey (k : String) (fresh : String) (now : Int) (store : Store) : DupResult :=
  match findOne k store with
  | none => .notFound
  | some original =>
    let daysLeft := max 1 (ceilDiv (original.expires - now) 86400000)
    let r : KeyRecord :=
      ⟨fresh, original.note ++ " (copy)", none, now, now + daysLeft * 86400000⟩
    match create r store with
    | none => .createError
    | some store2 => .ok r store2

/-- Hours a Linkvertise key lasts (`LINKVERTISE_KEY_HOURS`). -/
def LINKVERTISE_KEY_HOURS : Int := 24

/-- Result of `GET /getkey`: a redirect to `/showkey` carrying the fresh key
and the hour count, or a 500 when `Key.create` throws. -/
inductive GetkeyResult where
  | redirect (key : String) (hours : Int) (store : Store)
  | serverError
deriving Repr, DecidableEq

/-- The `GET /getkey` handler.  The route is registered without the
`requireAuth` middleware, so the credential the request may carry — modelled
by the `auth` argument — is never consulted: a record with a null binding and
expiry `Date.now() + LINKVERTISE_KEY_HOURS * 60 * 60 * 1000` is created for
any caller.  `dateStr` is the date half of the ISO timestamp used in the
note. -/
def getkey (auth : Option String) (fresh : String) (now : Int) (dateStr : String)
    (store : Store) : GetkeyResult :=
  match create ⟨fresh, "Linkvertise - " ++ dateStr, none, now,
      now + LINKVERTISE_KEY_HOURS * 60 * 60 * 1000⟩ store with
  | none => .serverError
  | some store2 => .redirect fresh LINKVERTISE_KEY_HOURS store2

/-- One mutating endpoint invocation, for quantifying over everything that can
touch the store.  `resetOp` is the administrative reset-binding;
`redeemOp` is a (sequentially run) `validateKey` call. -/
inductive AdminOp where
  | createOp (fresh note : String) (expires : Int)
  | resetOp (k : String)
  | deleteOp (k : String)
  | updateNoteOp (k : String) (note : String)
  | extendOp (k : String) (days : Int)
  | purgeOp
  | bulkOp (gen : Nat → String) (count : Option Int) (days : Option Int) (note : Option String)
  | duplicateOp (k : String) (fresh : String)
  | getkeyOp (fresh : String)
  | redeemOp (key : Option String) (hwid : Option String)

/-- The store after running one endpoint at time `now` to completion, with no
other request interleaved (a handler that fails leaves the store as it was).
In particular `redeemOp` is a `validateKey` call whose read and write are not
split by a concurrent request; the interleaved semantics of `validateKey`,
where a racing redemption's stale save can land after another write, is the
`microStep`/`runSchedule` machine above, not this function. -/
def applyOp (op : AdminOp) (now : Int) (store : Store) : Store :=
  match op with
  | .createOp f n e => (create ⟨f, n, none, now, e⟩ store).getD store
  | .resetOp k => (resetHwid k store).getD store
  | .deleteOp k => (deleteKey k store).getD store
  | .updateNoteOp k n => (updateNote k n store).getD store
  | .extendOp k d =>
    match extendKey k d now store with
    | .ok _ s => s
    | .notFound => store
  | .purgeOp => (purge now store).1
  | .bulkOp gen c d n => (bulkCreate gen c d n now store).1
  | .duplicateOp k f =>
    match duplicateKey k f now store with
    | .ok _ s => s
    | _ => store
  | .getkeyOp f =>
    match getkey none f now "" store with
    | .redirect _ _ s => s
    | .serverError => store
  | .redeemOp key h => (validateKey key h now store).2

/-! ### Basic lemmas about the store operations -/

theorem jsTruthy_some_iff {s : String} : jsTruthy (some s) = true ↔ s ≠ "" := by
  simp only [jsTruthy, Bool.not_eq_true', Bool.eq_false_iff]
  exact not_congr (String.isEmpty_iff s)

theorem mem_of_findOne {k : String} {store : Store} {r : KeyRecord}
    (h : findOne k store = some r) : r ∈ store ∧ r.key = k := by
  refine ⟨List.mem_of_find?_eq_some h, ?_⟩
  have hp := List.find?_some h
  simpa using hp

theorem nodup_key_inj {store : Store} (hnd : (store.map KeyRecord.key).Nodup)
    {a b : KeyRecord} (ha : a ∈ store) (hb : b ∈ store) (hk : a.key = b.key) : a = b :=
  List.inj_on_of_nodup_map hnd ha hb hk

theorem findOne_eq_of_nodup {store : Store} (hnd : (store.map KeyRecord.key).Nodup)
    {r : KeyRecord} (hr : r ∈ store) : findOne r.key store = some r := by
  induction store with
  | nil => cases hr
  | cons a rest ih =>
    rw [List.map_cons, List.nodup_cons] at hnd
    rcases List.mem_cons.mp hr with rfl | hmem
    · simp [findOne, List.find?]
    · have hka : (a.key == r.key) = false := by
        rw [beq_eq_false_iff_ne]
        intro hEq
        exact hnd.1 (hEq ▸ List.mem_map_of_mem KeyRecord.key hmem)
      have ihr := ih hnd.2 hmem
      simp only [findOne] at ihr ⊢
      simp only [List.find?, hka]
      exact ihr

theorem mem_updateFirst {p : KeyRecord → Bool} {f : KeyRecord → KeyRecord} :
    ∀ {l : Store} {r2 : KeyRecord}, r2 ∈ updateFirst p f l →
      r2 ∈ l ∨ ∃ r1, r1 ∈ l ∧ p r1 = true ∧ r2 = f r1 := by
  intro l
  induction l with
  | nil => intro r2 h; cases h
  | cons a rest ih =>
    intro r2 h
    by_cases hp : p a = true
    · rw [updateFirst, if_pos hp] at h
      rcases List.mem_cons.mp h with rfl | hmem
      · exact Or.inr ⟨a, List.mem_cons_self a rest, hp, rfl⟩
      · exact Or.inl (List.mem_cons_of_mem a hmem)
    · rw [updateFirst, if_neg hp] at h
      rcases List.mem_cons.mp h with rfl | hmem
      · exact Or.inl (List.mem_cons_self r2 rest)
      · rcases ih hmem with h1 | ⟨r1, hr1, hpr1, h2⟩
        · exact Or.inl (List.mem_cons_of_mem a h1)
        · exact Or.inr ⟨r1, List.mem_cons_of_mem a hr1, hpr1, h2⟩

theorem findOne_updateFirst {k : String} (f : KeyRecord → KeyRecord)
    (hf : ∀ x, (f x).key = x.key) :
    ∀ l : Store, findOne k (updateFirst (fun r => r.key == k) f l) = (findOne k l).map f := by
  intro l
  induction l with
  | nil => rfl
  | cons a rest ih =>
    by_cases hp : (a.key == k) = true
    · have hpf : ((f a).key == k) = true := by rw [hf a]; exact hp
      rw [updateFirst, if_pos hp]
      simp only [findOne, List.find?, hpf, hp]
      rfl
    · have hpb : (a.key == k) = false := by simpa using hp
      have hpfb : ((f a).key == k) = false := by rw [hf a]; exact hpb
      rw [updateFirst, if_neg hp]
      simp only [findOne, List.find?, hpfb, hpb]
      exact ih

theorem create_eq_some {r : KeyRecord} {store s2 : Store} (h : create r store = some s2) :
    s2 = store ++ [r] ∧ store.any (fun x => x.key == r.key) = false := by
  unfold create at h
  split at h
  · cases h
  · rename_i hc
    cases h
    exact ⟨rfl, by simpa using hc⟩

theorem validateKey_snd {key hwid : Option String} {now : Int} {store : Store} :
    (validateKey key hwid now store).2 = store ∨
    ∃ kData, findOne (key.getD "") store = some kData ∧ jsTruthy kData.hwid = false ∧
      (validateKey key hwid now store).2 = saveHwid kData.key (hwid.getD "") store := by
  unfold validateKey
  by_cases h1 : (!jsTruthy key || !jsTruthy hwid) = true
  · rw [if_pos h1]; exact Or.inl rfl
  · rw [if_neg h1]
    cases hfind : findOne (key.getD "") store with
    | none => exact Or.inl rfl
    | some kData =>
      dsimp only
      by_cases h2 : now > kData.expires
      · rw [if_pos h2]; exact Or.inl rfl
      · rw [if_neg h2]
        by_cases h3 : (!jsTruthy kData.hwid) = true
        · rw [if_pos h3]
          exact Or.inr ⟨kData, rfl, by simpa using h3, rfl⟩
        · rw [if_neg h3]
          by_cases h4 : (kData.hwid == hwid) = true
          · rw [if_pos h4]; exact Or.inl rfl
          · rw [if_neg h4]; exact Or.inl rfl

/-! ### Claims -/

/-- C1: redemption validation follows the specified algorithm in order —
`MissingParameters` on an absent/empty `id` or `device_id` with no store
lookup (outcome and store do not depend on the store contents at all), then
`NotFound`, then `Expired` when `now > expires_at`, then first-use bind on a
null binding, else success exactly when the binding equals the presented
device and `DeviceMismatch` otherwise. -/
theorem C1_validation_follows_algorithm (key hwid : Option String) (now : Int)
    (store : Store) (hwf : wellFormed store = true) :
    validateKey key hwid now store = specValidate key hwid now store ∧
    (jsTruthy key = false ∨ jsTruthy hwid = false →
      ∀ other : Store, validateKey key hwid now other = (.missingParams, other)) := by
  constructor
  · unfold validateKey specValidate
    by_cases h1 : (!jsTruthy key || !jsTruthy hwid) = true
    · rw [if_pos h1, if_pos h1]
    · rw [if_neg h1, if_neg h1]
      have h1' : jsTruthy key = true ∧ jsTruthy hwid = true := by
        simpa [not_or] using h1
      obtain ⟨t, ht, htne⟩ : ∃ t, hwid = some t ∧ t ≠ "" := by
        cases hwid with
        | none => simp [jsTruthy] at h1'
        | some t => exact ⟨t, rfl, jsTruthy_some_iff.mp h1'.2⟩
      cases hfind : findOne (key.getD "") store with
      | none => rfl
      | some kData =>
        dsimp only
        by_cases h2 : now > kData.expires
        · rw [if_pos h2, if_pos h2]
        · rw [if_neg h2, if_neg h2]
          cases hh : kData.hwid with
          | none => simp [jsTruthy]
          | some bound =>
            have hmem := (mem_of_findOne hfind).1
            have hb : bound ≠ "" := by
              have hx := List.all_eq_true.mp hwf kData hmem
              rw [hh] at hx
              intro hcon
              subst hcon
              simp at hx
            have htr : jsTruthy (some bound) = true := jsTruthy_some_iff.mpr hb
            subst ht
            simp [htr, hh]
  · intro hmiss other
    unfold validateKey
    have hcond : (!jsTruthy key || !jsTruthy hwid) = true := by
      rcases hmiss with h | h <;> simp [h]
    rw [if_pos hcond]

/-- Witness for C1 at a concrete input. -/
theorem C1_validation_follows_algorithm_witness :
    validateKey (some "K1") (some "devA") 0 [⟨"K1", "n", none, 0, 5⟩] =
      specValidate (some "K1") (some "devA") 0 [⟨"K1", "n", none, 0, 5⟩] :=
  (C1_validation_follows_algorithm (some "K1") (some "devA") 0 [⟨"K1", "n", none, 0, 5⟩]
    (by decide)).1

/-- An unbound, unexpired token, shared store of the race example. -/
def raceStore : Store := [⟨"K1", "No Label", none, 0, 1000⟩]

/-- Two simultaneous redemptions of the same unbound token with distinct
devices `devA` and `devB`. -/
def raceConfig : Config :=
  { store := raceStore,
    reqs := [(⟨some "K1", some "devA", 500⟩, .start),
             (⟨some "K1", some "devB", 500⟩, .start)] }

/-- C2: the first-use bind of `validateKey` is not atomic.  Under the
interleaving read-read-write-write both racing callers finish `authorized`
(each read a null binding before either wrote), and the second write silently
overwrites the first, binding `devB`; the claimed outcome — exactly one
`authorized` and `deviceMismatch` for the rest — only appears under the
serialized schedule. -/
theorem C2_first_use_bind_not_atomic :
    (runSchedule [0, 1, 0, 1] raceConfig).reqs.map (fun q => q.2) =
      [.done .authorized, .done .authorized] ∧
    (runSchedule [0, 1, 0, 1] raceConfig).store =
      [⟨"K1", "No Label", some "devB", 0, 1000⟩] ∧
    (runSchedule [0, 0, 1, 1] raceConfig).reqs.map (fun q => q.2) =
      [.done .authorized, .done .deviceMismatch] := by
  refine ⟨?_, ?_, ?_⟩ <;> decide

/-- C6: expiry is checked before binding logic — whatever the stored binding
is (in particular when it is null), a redemption of a token with
`now > expires_at` yields `Expired` and returns the store unchanged, so the
failed attempt never binds the token. -/
theorem C6_expired_checked_first (key hwid : Option String) (now : Int) (store : Store)
    (r : KeyRecord) (hkey : jsTruthy key = true) (hdev : jsTruthy hwid = true)
    (hfind : findOne (key.getD "") store = some r) (hexp : now > r.expires) :
    validateKey key hwid now store = (.expired, store) := by
  unfold validateKey
  rw [if_neg (by simp [hkey, hdev])]
  simp only [hfind]
  rw [if_pos hexp]

/-- Witness for C6: the spec's example — a 1-hour token redeemed 2 hours
later is `Expired` and stays unbound. -/
theorem C6_expired_checked_first_witness :
    validateKey (some "K1") (some "devA") 7200000 [⟨"K1", "n", none, 0, 3600000⟩] =
      (.expired, [⟨"K1", "n", none, 0, 3600000⟩]) :=
  C6_expired_checked_first (some "K1") (some "devA") 7200000
    [⟨"K1", "n", none, 0, 3600000⟩] ⟨"K1", "n", none, 0, 3600000⟩
    (by decide) (by decide) (by decide) (by decide)

/-- C4 (amended): extend fails `NotFound` on an absent token and otherwise
saves `max(expires_at, now) + extra_duration` (the duration being
`days * 24 * 60 * 60 * 1000` milliseconds); when the added duration is
nonnegative the new expiry is at least both the old expiry and `now`.  The
handler also accepts negative day counts, which do shorten validity — see the
counterexample. -/
theorem C4_extend_max_rule (k : String) (days now : Int) (store : Store) :
    (findOne k store = none → extendKey k days now store = .notFound) ∧
    (∀ kData, findOne k store = some kData →
      extendKey k days now store =
        .ok (max kData.expires now + days * 86400000)
          (saveExpires k (max kData.expires now + days * 86400000) store) ∧
      (0 ≤ days →
        kData.expires ≤ max kData.expires now + days * 86400000 ∧
        now ≤ max kData.expires now + days * 86400000)) := by
  constructor
  · intro hnone
    unfold extendKey
    rw [hnone]
  · intro kData hfind
    have hbase : (if kData.expires > now then kData.expires else now) =
        max kData.expires now := by
      rcases le_or_lt kData.expires now with hc | hc
      · rw [if_neg (not_lt.mpr hc), max_eq_right hc]
      · rw [if_pos hc, max_eq_left hc.le]
    constructor
    · unfold extendKey
      rw [hfind]
      dsimp only
      rw [hbase]
    · intro hd
      have hmul : 0 ≤ days * 86400000 := mul_nonneg hd (by norm_num)
      have h1 := le_max_left kData.expires now
      have h2 := le_max_right kData.expires now
      exact ⟨by omega, by omega⟩

/-- Witness for C4 at a concrete input. -/
theorem C4_extend_max_rule_witness :
    extendKey "K1" 1 0 [⟨"K1", "n", none, 0, 1000⟩] =
      .ok (max 1000 0 + 1 * 86400000)
        (saveExpires "K1" (max 1000 0 + 1 * 86400000) [⟨"K1", "n", none, 0, 1000⟩]) :=
  ((C4_extend_max_rule "K1" 1 0 [⟨"K1", "n", none, 0, 1000⟩]).2
    ⟨"K1", "n", none, 0, 1000⟩ (by decide)).1

/-- C4 counterexample: `POST /api/extend` with `days = -1` on a token expiring
at 1000 (at `now = 0`) saves expiry `1000 - 86400000`, strictly below
`max(expires_at, now)` — the claimed "never shortens validity" fails for the
negative day counts the handler accepts. -/
theorem C4_counterexample :
    extendKey "K1" (-1) 0 [⟨"K1", "n", none, 0, 1000⟩] =
      .ok (1000 - 86400000) [⟨"K1", "n", none, 0, 1000 - 86400000⟩] ∧
    (1000 - 86400000 : Int) < max 1000 0 := by
  refine ⟨by decide, by decide⟩

/-- C5: first-use binding is idempotent for the binding device — on an
unbound token that is unexpired at both calls, the first redemption with
device `d` is authorized and binds `d`, and a second redemption with the same
device is authorized again and changes nothing. -/
theorem C5_first_bind_idempotent (k d : String) (now1 now2 : Int) (store : Store)
    (r : KeyRecord) (hk : k ≠ "") (hd : d ≠ "") (hfind : findOne k store = some r)
    (hub : r.hwid = none) (he1 : ¬ now1 > r.expires) (he2 : ¬ now2 > r.expires) :
    validateKey (some k) (some d) now1 store = (.authorized, saveHwid k d store) ∧
    findOne k (saveHwid k d store) = some { r with hwid := some d } ∧
    validateKey (some k) (some d) now2 (saveHwid k d store) =
      (.authorized, saveHwid k d store) := by
  have hktr : jsTruthy (some k) = true := jsTruthy_some_iff.mpr hk
  have hdtr : jsTruthy (some d) = true := jsTruthy_some_iff.mpr hd
  have hrk : r.key = k := (mem_of_findOne hfind).2
  have hfu : findOne k (saveHwid k d store) = some { r with hwid := some d } := by
    unfold saveHwid
    rw [findOne_updateFirst (fun x => { x with hwid := some d }) (fun x => rfl) store, hfind]
    rfl
  refine ⟨?_, hfu, ?_⟩
  · unfold validateKey
    rw [if_neg (by simp [hktr, hdtr])]
    simp only [Option.getD_some, hfind]
    rw [if_neg he1, hub]
    simp only [jsTruthy, Bool.not_false, if_true, Option.getD_some, hrk]
  · unfold validateKey
    rw [if_neg (by simp [hktr, hdtr])]
    simp only [Option.getD_some, hfu]
    rw [if_neg he2]
    simp [hdtr]

/-- Witness for C5 at a concrete input. -/
theorem C5_first_bind_idempotent_witness :
    validateKey (some "K1") (some "X") 5 [⟨"K1", "n", none, 0, 100⟩] =
      (.authorized, saveHwid "K1" "X" [⟨"K1", "n", none, 0, 100⟩]) :=
  (C5_first_bind_idempotent "K1" "X" 5 6 [⟨"K1", "n", none, 0, 100⟩]
    ⟨"K1", "n", none, 0, 100⟩ (by decide) (by decide) (by decide) (by decide)
    (by decide) (by decide)).1

theorem bulkLoop_spec (gen : Nat → String) (note : String) (ca e : Int) :
    ∀ (n i : Nat) (store : Store) (acc : List String),
      (bulkLoop gen note ca e i n store acc).1.length ≤ store.length + n ∧
      (∀ keys, (bulkLoop gen note ca e i n store acc).2 = .ok keys →
        keys.length = acc.length + n ∧
        (bulkLoop gen note ca e i n store acc).1.length = store.length + n) ∧
      (∀ msg, (bulkLoop gen note ca e i n store acc).2 = .err msg →
        ∃ j, j < n ∧ (bulkLoop gen note ca e i n store acc).1.length = store.length + j ∧
          create ⟨gen (i + j), note, none, ca, e⟩
            (bulkLoop gen note ca e i n store acc).1 = none) := by
  intro n
  induction n with
  | zero =>
    intro i store acc
    refine ⟨by simp [bulkLoop], ?_, ?_⟩
    · intro keys hk
      simp only [bulkLoop, BulkResult.ok.injEq] at hk
      subst hk
      simp [bulkLoop]
    · intro msg hm
      simp [bulkLoop] at hm
  | succ n ih =>
    intro i store acc
    cases hc : create ⟨gen i, note, none, ca, e⟩ store with
    | none =>
      refine ⟨?_, ?_, ?_⟩
      · simp only [bulkLoop, hc]
        omega
      · intro keys hk
        simp [bulkLoop, hc] at hk
      · intro msg hm
        refine ⟨0, Nat.succ_pos n, ?_, ?_⟩
        · simp only [bulkLoop, hc]
          omega
        · simp only [bulkLoop, hc, Nat.add_zero]
    | some s2 =>
      obtain ⟨hs2, hany⟩ := create_eq_some hc
      have hlen2 : s2.length = store.length + 1 := by rw [hs2]; simp
      have heq : bulkLoop gen note ca e i (n + 1) store acc =
          bulkLoop gen note ca e (i + 1) n s2 (acc ++ [gen i]) := by
        simp only [bulkLoop, hc]
      obtain ⟨ihl, ihok, iherr⟩ := ih (i + 1) s2 (acc ++ [gen i])
      refine ⟨?_, ?_, ?_⟩
      · rw [heq]; omega
      · intro keys hk
        rw [heq] at hk ⊢
        obtain ⟨hk1, hk2⟩ := ihok keys hk
        simp only [List.length_append, List.length_singleton] at hk1
        exact ⟨by omega, by omega⟩
      · intro msg hm
        rw [heq] at hm ⊢
        obtain ⟨j, hj, hjl, hjc⟩ := iherr msg hm
        refine ⟨j + 1, by omega, by omega, ?_⟩
        have hidx : i + (j + 1) = i + 1 + j := by omega
        rw [hidx]
        exact hjc

theorem mem_bulkLoop (gen : Nat → String) (note : String) (ca e : Int) :
    ∀ (n i : Nat) (store : Store) (acc : List String) (r2 : KeyRecord),
      r2 ∈ (bulkLoop gen note ca e i n store acc).1 →
      r2 ∈ store ∨ (r2.hwid = none ∧ ∀ x ∈ store, x.key ≠ r2.key) := by
  intro n
  induction n with
  | zero =>
    intro i store acc r2 h
    simp only [bulkLoop] at h
    exact Or.inl h
  | succ n ih =>
    intro i store acc r2 h
    cases hc : create ⟨gen i, note, none, ca, e⟩ store with
    | none =>
      simp only [bulkLoop, hc] at h
      exact Or.inl h
    | some s2 =>
      obtain ⟨hs2, hany⟩ := create_eq_some hc
      simp only [bulkLoop, hc] at h
      rcases ih (i + 1) s2 (acc ++ [gen i]) r2 h with hmem | ⟨hnone, hall⟩
      · rw [hs2] at hmem
        rcases List.mem_append.mp hmem with h1 | h1
        · exact Or.inl h1
        · have hr2 : r2 = ⟨gen i, note, none, ca, e⟩ := by simpa using h1
          subst hr2
          refine Or.inr ⟨rfl, ?_⟩
          intro x hx hk
          have : store.any (fun y => y.key == gen i) = true :=
            List.any_eq_true.mpr ⟨x, hx, by simp [hk]⟩
          rw [this] at hany
          cases hany
      · refine Or.inr ⟨hnone, fun x hx => hall x ?_⟩
        rw [hs2]
        exact List.mem_append.mpr (Or.inl hx)

/-- C7 (amended): bulk-issue creates at most 50 tokens regardless of the
requested count; either every one of the capped count is created and the
response reports them all, or the loop stops at the first failing create —
the records made before the failure stay in the store, and the error response
reports only a message, not how many succeeded. -/
theorem C7_bulk_create_capped (gen : Nat → String) (count days : Option Int)
    (note : Option String) (now : Int) (store : Store) :
    (bulkCreate gen count days note now store).1.length ≤ store.length + 50 ∧
    (∀ keys, (bulkCreate gen count days note now store).2 = .ok keys →
      keys.length = effBulkCount count ∧
      (bulkCreate gen count days note now store).1.length =
        store.length + effBulkCount count) ∧
    (∀ msg, (bulkCreate gen count days note now store).2 = .err msg →
      reportedCount (bulkCreate gen count days note now store).2 = none ∧
      ∃ j, j < effBulkCount count ∧
        (bulkCreate gen count days note now store).1.length = store.length + j) := by
  have hcap : effBulkCount count ≤ 50 := by
    unfold effBulkCount
    rcases le_or_lt (orDefault count 1) 50 with hc | hc
    · exact le_trans (Int.toNat_le_toNat (min_le_right _ _)) (by norm_num)
    · rw [min_eq_right hc.le]
      norm_num
  obtain ⟨hl, hok, herr⟩ :=
    bulkLoop_spec gen (if jsTruthy note then note.getD "" else "Bulk Generated") now
      (now + orDefault days 30 * 86400000) (effBulkCount count) 0 store []
  refine ⟨?_, ?_, ?_⟩
  · unfold bulkCreate
    exact le_trans hl (by omega)
  · intro keys hk
    obtain ⟨h1, h2⟩ := hok keys hk
    exact ⟨by simpa using h1, h2⟩
  · intro msg hm
    refine ⟨by rw [hm]; rfl, ?_⟩
    obtain ⟨j, hj, hjl, _⟩ := herr msg hm
    exact ⟨j, hj, hjl⟩

/-- Witness for C7 at a concrete input. -/
theorem C7_bulk_create_capped_witness :
    (["KEY_A"] : List String).length = effBulkCount (some 1) :=
  (((C7_bulk_create_capped (fun x => "KEY_A") (some 1) (some 1) none 0 []).2.1
    ["KEY_A"] (by decide)).1)

/-- C7 counterexample: asking for two keys when the second generated name
already exists creates one record, then answers with a bare error message —
`reportedCount` is `none`, so the response does not say how many succeeded. -/
theorem C7_counterexample :
    (bulkCreate (fun n => if n = 0 then "KEY_A" else "KEY_B") (some 2) (some 1) none 0
      [⟨"KEY_B", "n", none, 0, 99⟩]).1.length = 2 ∧
    (bulkCreate (fun n => if n = 0 then "KEY_A" else "KEY_B") (some 2) (some 1) none 0
      [⟨"KEY_B", "n", none, 0, 99⟩]).2 = .err dupKeyMessage ∧
    reportedCount (bulkCreate (fun n => if n = 0 then "KEY_A" else "KEY_B") (some 2)
      (some 1) none 0 [⟨"KEY_B", "n", none, 0, 99⟩]).2 = none := by
  refine ⟨by decide, by decide, by decide⟩

/-- C8: duplicate fails `NotFound` on an absent token; otherwise (when the
generated key name is fresh) it creates a record whose binding starts null,
whose note is the original's annotated with " (copy)", and whose expiry is
`now` plus `max(1, ceil((expires_at - now) / one_day))` whole days. -/
theorem C8_duplicate_carries_lifetime (k fresh : String) (now : Int) (store : Store) :
    (findOne k store = none → duplicateKey k fresh now store = .notFound) ∧
    (∀ original, findOne k store = some original →
      store.any (fun x => x.key == fresh) = false →
      duplicateKey k fresh now store =
        .ok ⟨fresh, original.note ++ " (copy)", none, now,
            now + max 1 (ceilDiv (original.expires - now) 86400000) * 86400000⟩
          (store ++ [⟨fresh, original.note ++ " (copy)", none, now,
            now + max 1 (ceilDiv (original.expires - now) 86400000) * 86400000⟩])) := by
  constructor
  · intro hnone
    unfold duplicateKey
    rw [hnone]
  · intro original hfind hfresh
    unfold duplicateKey
    rw [hfind]
    dsimp only
    unfold create
    rw [if_neg (by simp [hfresh])]

/-- Witness for C8 at a concrete input. -/
theorem C8_duplicate_carries_lifetime_witness :
    duplicateKey "K1" "K2" 0 [⟨"K1", "lbl", some "d", 0, 100⟩] =
      .ok ⟨"K2", "lbl (copy)", none, 0,
          0 + max 1 (ceilDiv (100 - 0) 86400000) * 86400000⟩
        ([⟨"K1", "lbl", some "d", 0, 100⟩] ++ [⟨"K2", "lbl (copy)", none, 0,
          0 + max 1 (ceilDiv (100 - 0) 86400000) * 86400000⟩]) :=
  (C8_duplicate_carries_lifetime "K1" "K2" 0 [⟨"K1", "lbl", some "d", 0, 100⟩]).2
    ⟨"K1", "lbl", some "d", 0, 100⟩ (by decide) (by decide)

/-- C9: purge deletes exactly the records with `expires < now`: no survivor
satisfies it, every unexpired record survives (and survivors form a sublist
of the original store, hence are untouched), and the reported count plus the
survivor count equals the store size. -/
theorem C9_purge_exact (now : Int) (store : Store) :
    (∀ r ∈ (purge now store).1, ¬ r.expires < now) ∧
    (∀ r ∈ store, ¬ r.expires < now → r ∈ (purge now store).1) ∧
    List.Sublist (purge now store).1 store ∧
    (purge now store).2 + (purge now store).1.length = store.length := by
  refine ⟨?_, ?_, ?_, ?_⟩
  · intro r hr
    have hp := (List.mem_filter.mp hr).2
    simpa using hp
  · intro r hr hexp
    exact List.mem_filter.mpr ⟨hr, by simpa using hexp⟩
  · exact List.filter_sublist store
  · exact (List.length_eq_length_filter_add
      (fun r : KeyRecord => decide (r.expires < now))).symm

/-- Witness for C9 at a concrete input. -/
theorem C9_purge_exact_witness :
    ¬ (⟨"A", "n", none, 0, 10⟩ : KeyRecord).expires < 5 :=
  (C9_purge_exact 5 [⟨"A", "n", none, 0, 10⟩, ⟨"B", "n", none, 0, 1⟩]).1
    ⟨"A", "n", none, 0, 10⟩ (by decide)

/-- C10: `GET /getkey` creates a token for any caller without a
privileged-credential check — the outcome is identical whatever credential
the request carries, and even a caller failing `requireAuth` gets a fresh
record with a null binding expiring 24 hours (86400000 ms) after `now`. -/
theorem C10_getkey_no_auth (auth1 auth2 : Option String) (fresh : String) (now : Int)
    (dateStr : String) (store : Store)
    (hfresh : store.any (fun x => x.key == fresh) = false) :
    getkey auth1 fresh now dateStr store = getkey auth2 fresh now dateStr store ∧
    (requireAuth auth1 = false →
      getkey auth1 fresh now dateStr store =
        .redirect fresh 24
          (store ++ [⟨fresh, "Linkvertise - " ++ dateStr, none, now, now + 86400000⟩])) := by
  constructor
  · rfl
  · intro hno
    unfold getkey create
    rw [if_neg (by simp [hfresh])]
    rfl

/-- Witness for C10 at a concrete input. -/
theorem C10_getkey_no_auth_witness :
    getkey none "K9" 0 "d" [] = getkey (some "wrong") "K9" 0 "d" [] ∧
    getkey none "K9" 0 "d" [] =
      .redirect "K9" 24 ([] ++ [⟨"K9", "Linkvertise - d", none, 0, 0 + 86400000⟩]) :=
  ⟨(C10_getkey_no_auth none (some "wrong") "K9" 0 "d" [] (by decide)).1,
   (C10_getkey_no_auth none (some "wrong") "K9" 0 "d" [] (by decide)).2 (by decide)⟩

/-- C3 (amended): a non-null binding is permanent until the administrative
reset, under serialized operation — while the token is unexpired, every
redemption with a different nonempty device yields `DeviceMismatch` and
leaves the store unchanged no matter how often it is repeated; and when every
endpoint invocation runs to completion before the next begins (`applyOp`
semantics — in particular no redemption's read/write pair is split by a
concurrent request), no endpoint other than the reset on that key overwrites
or clears the non-null binding (keys are unique, as the schema's unique index
guarantees).  The serialization proviso is necessary: the counterexample
shows a redemption racing the first-use bind overwriting a freshly written
non-null binding with its stale snapshot. -/
theorem C3_binding_permanent_until_reset (store : Store) (r : KeyRecord) (h : String)
    (now : Int) (hnd : (store.map KeyRecord.key).Nodup) (hr : r ∈ store)
    (hh : r.hwid = some h) (hhne : h ≠ "") (hkne : r.key ≠ "") :
    (∀ d : String, d ≠ "" → d ≠ h → ¬ now > r.expires →
      validateKey (some r.key) (some d) now store = (.deviceMismatch, store) ∧
      ∀ n : Nat,
        Nat.iterate (fun s => (validateKey (some r.key) (some d) now s).2) n store =
          store) ∧
    (∀ op : AdminOp, op ≠ AdminOp.resetOp r.key →
      ∀ r2 ∈ applyOp op now store, r2.key = r.key → r2.hwid = some h) := by
  have hfind : findOne r.key store = some r := findOne_eq_of_nodup hnd hr
  have hsame : ∀ r2, r2 ∈ store → r2.key = r.key → r2.hwid = some h := by
    intro r2 h2 hk2
    rw [nodup_key_inj hnd h2 hr hk2]
    exact hh
  constructor
  · intro d hd hdh hexp
    have hmain : validateKey (some r.key) (some d) now store = (.deviceMismatch, store) := by
      unfold validateKey
      rw [if_neg (by simp [jsTruthy_some_iff.mpr hkne, jsTruthy_some_iff.mpr hd])]
      simp only [Option.getD_some, hfind]
      rw [if_neg hexp, hh]
      rw [if_neg (by simp [jsTruthy_some_iff.mpr hhne])]
      have hne2 : ¬ ((some h : Option String) == some d) = true := by
        simp only [beq_iff_eq, Option.some.injEq]
        exact fun hEq => hdh hEq.symm
      rw [if_neg hne2]
    refine ⟨hmain, ?_⟩
    intro n
    induction n with
    | zero => rfl
    | succ m ihm =>
      rw [Function.iterate_succ_apply, hmain]
      exact ihm
  · intro op hop r2 hr2 hkey2
    have hcreate_mem : ∀ (rec : KeyRecord) (s2 : Store), create rec store = some s2 →
        r2 ∈ s2 → r2.hwid = some h := by
      intro rec s2 hc hm
      obtain ⟨hs2, hany⟩ := create_eq_some hc
      rw [hs2] at hm
      rcases List.mem_append.mp hm with h1 | h1
      · exact hsame r2 h1 hkey2
      · exfalso
        have hrec : r2 = rec := by simpa using h1
        have : store.any (fun x => x.key == rec.key) = true :=
          List.any_eq_true.mpr ⟨r, hr, by simp [← hkey2, hrec]⟩
        rw [this] at hany
        cases hany
    cases op with
    | createOp f n e =>
      dsimp only [applyOp] at hr2
      cases hc : create ⟨f, n, none, now, e⟩ store with
      | none => rw [hc] at hr2; exact hsame r2 hr2 hkey2
      | some s2 =>
        rw [hc] at hr2
        exact hcreate_mem _ s2 hc hr2
    | resetOp k =>
      have hkk : k ≠ r.key := fun hEq => hop (by rw [hEq])
      dsimp only [applyOp] at hr2
      unfold resetHwid at hr2
      cases hf : findOne k store with
      | none => rw [hf] at hr2; exact hsame r2 hr2 hkey2
      | some w =>
        rw [hf] at hr2
        simp only [Option.getD_some] at hr2
        rcases mem_updateFirst hr2 with h1 | ⟨r1, hr1, hp1, hfr⟩
        · exact hsame r2 h1 hkey2
        · exfalso
          have hk1 : r1.key = k := by simpa using hp1
          have : r2.key = r1.key := by rw [hfr]
          exact hkk (by rw [← hk1, ← this, hkey2])
    | deleteOp k =>
      dsimp only [applyOp] at hr2
      unfold deleteKey at hr2
      cases hf : findOne k store with
      | none => rw [hf] at hr2; exact hsame r2 hr2 hkey2
      | some w =>
        rw [hf] at hr2
        simp only [Option.getD_some] at hr2
        exact hsame r2 ((store.eraseP_sublist).subset hr2) hkey2
    | updateNoteOp k n =>
      dsimp only [applyOp] at hr2
      unfold updateNote at hr2
      cases hf : findOne k store with
      | none => rw [hf] at hr2; exact hsame r2 hr2 hkey2
      | some w =>
        rw [hf] at hr2
        simp only [Option.getD_some] at hr2
        rcases mem_updateFirst hr2 with h1 | ⟨r1, hr1, hp1, hfr⟩
        · exact hsame r2 h1 hkey2
        · have : r2.hwid = r1.hwid := by rw [hfr]
          rw [this]
          exact hsame r1 hr1 (by rw [← hkey2, hfr])
    | extendOp k dys =>
      dsimp only [applyOp] at hr2
      unfold extendKey at hr2
      cases hf : findOne k store with
      | none => rw [hf] at hr2; exact hsame r2 hr2 hkey2
      | some w =>
        rw [hf] at hr2
        dsimp only at hr2
        unfold saveExpires at hr2
        rcases mem_updateFirst hr2 with h1 | ⟨r1, hr1, hp1, hfr⟩
        · exact hsame r2 h1 hkey2
        · have : r2.hwid = r1.hwid := by rw [hfr]
          rw [this]
          exact hsame r1 hr1 (by rw [← hkey2, hfr])
    | purgeOp =>
      dsimp only [applyOp] at hr2
      exact hsame r2 ((List.filter_sublist store).subset hr2) hkey2
    | bulkOp gen c dys nt =>
      dsimp only [applyOp, bulkCreate] at hr2
      rcases mem_bulkLoop gen (if jsTruthy nt then nt.getD "" else "Bulk Generated") now
          (now + orDefault dys 30 * 86400000) (effBulkCount c) 0 store [] r2 hr2 with
        h1 | ⟨hnone, hall⟩
      · exact hsame r2 h1 hkey2
      · exact absurd hkey2.symm (hall r hr)
    | duplicateOp k f =>
      dsimp only [applyOp] at hr2
      unfold duplicateKey at hr2
      cases hf : findOne k store with
      | none => rw [hf] at hr2; exact hsame r2 hr2 hkey2
      | some orig =>
        rw [hf] at hr2
        dsimp only at hr2
        cases hc : create ⟨f, orig.note ++ " (copy)", none, now,
            now + max 1 (ceilDiv (orig.expires - now) 86400000) * 86400000⟩ store with
        | none => rw [hc] at hr2; exact hsame r2 hr2 hkey2
        | some s2 =>
          rw [hc] at hr2
          dsimp only at hr2
          exact hcreate_mem _ s2 hc hr2
    | getkeyOp f =>
      dsimp only [applyOp] at hr2
      unfold getkey at hr2
      cases hc : create ⟨f, "Linkvertise - " ++ "", none, now,
          now + LINKVERTISE_KEY_HOURS * 60 * 60 * 1000⟩ store with
      | none => rw [hc] at hr2; exact hsame r2 hr2 hkey2
      | some s2 =>
        rw [hc] at hr2
        dsimp only at hr2
        exact hcreate_mem _ s2 hc hr2
    | redeemOp key hw =>
      dsimp only [applyOp] at hr2
      rcases validateKey_snd with hst | ⟨kData, hfk, hfalsy, hst⟩
      · rw [hst] at hr2
        exact hsame r2 hr2 hkey2
      · rw [hst] at hr2
        unfold saveHwid at hr2
        rcases mem_updateFirst hr2 with h1 | ⟨r1, hr1, hp1, hfr⟩
        · exact hsame r2 h1 hkey2
        · exfalso
          have hk1 : r1.key = kData.key := by simpa using hp1
          have hk2 : r2.key = r1.key := by rw [hfr]
          have hr1r : r1 = r := nodup_key_inj hnd hr1 hr (by rw [← hkey2, hk2])
          have hkmem := (mem_of_findOne hfk).1
          have hkr : kData = r := nodup_key_inj hnd hkmem hr (by rw [← hk1, hr1r])
          rw [hkr, hh] at hfalsy
          rw [jsTruthy_some_iff.mpr hhne] at hfalsy
          cases hfalsy

/-- Witness for C3 at a concrete input: a token bound to `devA` redeemed with
`devB` while unexpired is `DeviceMismatch` and the store is unchanged. -/
theorem C3_binding_permanent_until_reset_witness :
    validateKey (some "K1") (some "devB") 500 [⟨"K1", "n", some "devA", 0, 1000⟩] =
      (.deviceMismatch, [⟨"K1", "n", some "devA", 0, 1000⟩]) :=
  ((C3_binding_permanent_until_reset [⟨"K1", "n", some "devA", 0, 1000⟩]
      ⟨"K1", "n", some "devA", 0, 1000⟩ "devA" 500 (by decide) (by decide) (by decide)
      (by decide) (by decide)).1 "devB" (by decide) (by decide) (by decide)).1

/-- C3 counterexample, refuting the claim as stated on two points.  First, a
token bound to `devA` but expired yields `Expired`, not `DeviceMismatch`,
when redeemed with `devB`, so the unconditional "always yields
DeviceMismatch" fails on expired tokens.  Second, an operation other than the
administrative reset does overwrite a non-null binding when redemptions
interleave: after the schedule read-read-write the store holds the non-null
binding `devA`, and the remaining step of the second redemption — a
redemption, not a reset — overwrites it with `devB` from its stale snapshot,
so the unqualified "no operation other than reset ever overwrites the
non-null binding" also fails under the program's interleaved semantics. -/
theorem C3_counterexample :
    (validateKey (some "K1") (some "devB") 200 [⟨"K1", "n", some "devA", 0, 100⟩]).1 =
      .expired ∧
    (validateKey (some "K1") (some "devB") 200 [⟨"K1", "n", some "devA", 0, 100⟩]).1 ≠
      .deviceMismatch ∧
    (runSchedule [0, 1, 0] raceConfig).store =
      [⟨"K1", "No Label", some "devA", 0, 1000⟩] ∧
    (runSchedule [0, 1, 0, 1] raceConfig).store =
      [⟨"K1", "No Label", some "devB", 0, 1000⟩] := by
  refine ⟨by decide, by decide, by decide, by decide⟩

end KeyServer
